import Mathlib

/-!
Verification of the FluidSdk feedback pipeline and capability crawler.

The definitions below are shallow embeddings of the TypeScript sources:
  * `src/src/helpers/execution.ts`  (ExecuteTask.giveFeedback, prepareFeedback,
    signFeedbackAuth, stringToBytes32)
  * `src/unnamed/part_003`          (IPFSClient.get)
  * `src/unnamed/part_001`          (EndpointCrawler, sequential-GET variant)
  * `src/unnamed/part_002`          (EndpointCrawler, path-cascade variant)

JavaScript dynamic values are modelled by the inductive `JValue`; JS `NaN`
appearing in a record is the dedicated constructor `nan` (it is not `null`
for truthiness / cleaning purposes, but serializes as "null").  Effects
(clock, network, signing, hashing) are passed in as explicit arguments.
-/

namespace FluidSdk

/-- A JavaScript value as it can occur in a feedback record or a crawled
JSON document.  Numbers are restricted to the integral fragment, which is
the only fragment the modelled code paths produce or inspect. -/
inductive JValue where
  | null
  | nan
  | bool (b : Bool)
  | num (n : Int)
  | str (s : String)
  | arr (elems : List JValue)
  | obj (fields : List (String × JValue))

instance : Inhabited JValue := ⟨JValue.null⟩

/-- JS truthiness of a value (`undefined` is modelled by `Option.none`
at use sites, never as a `JValue`). -/
def jvTruthy : JValue → Bool
  | .null => false
  | .nan => false
  | .bool b => b
  | .num n => n ≠ 0
  | .str s => s ≠ ""
  | .arr _ => true
  | .obj _ => true

/-- `fields[k]` of a JS object: the first binding of key `k`. -/
def getKey (fs : List (String × JValue)) (k : String) : Option JValue :=
  (fs.find? (fun p => p.1 = k)).map Prod.snd

/-- `o[k] = v` on a JS object: overwrite in place if the key exists
(keeping its position), else append the key at the end. -/
def setKey (fs : List (String × JValue)) (k : String) (v : JValue) :
    List (String × JValue) :=
  if fs.any (fun p => p.1 = k) then
    fs.map (fun p => if p.1 = k then (k, v) else p)
  else fs ++ [(k, v)]

/-- `Object.assign(fs, extra)`: apply every binding of `extra`, in order. -/
def assign (fs extra : List (String × JValue)) : List (String × JValue) :=
  extra.foldl (fun acc p => setKey acc p.1 p.2) fs

/-- Property access `v[k]` guarded by `v && typeof v === 'object' && k in v`
as the crawler performs it; arrays have no string-named properties here. -/
def jvGetField : JValue → String → Option JValue
  | .obj fs, k => getKey fs k
  | _, _ => none

/-- JS `a || b` on possibly-absent values (`none` = `undefined`). -/
def jsOr (a b : Option JValue) : Option JValue :=
  match a with
  | some x => if jvTruthy x then some x else b
  | none => b

/-! ### JS number parsing (`parseInt(s, 10)` and `Number`) -/

/-- Leading-whitespace test used by `parseInt` (common whitespace only). -/
def isJsWs (c : Char) : Bool :=
  c = ' ' || c = '\t' || c = '\n' || c = '\r'

/-- Longest prefix of decimal digits. -/
def digitsHead : List Char → List Char
  | [] => []
  | c :: cs => if c.isDigit then c :: digitsHead cs else []

def natOfDigits (cs : List Char) : Nat :=
  cs.foldl (fun a c => 10 * a + (c.toNat - '0'.toNat)) 0

/-- JS `parseInt(s, 10)`: skip whitespace, optional sign, then the longest
decimal-digit prefix; `none` models `NaN` (no digits found).  Trailing
garbage is ignored, exactly as in JS. -/
def jsParseIntDec (s : String) : Option Int :=
  let cs := s.data.dropWhile isJsWs
  let signed : Int × List Char :=
    match cs with
    | '-' :: r => (-1, r)
    | '+' :: r => (1, r)
    | _ => (1, cs)
  let ds := digitsHead signed.2
  if ds.isEmpty then none else some (signed.1 * natOfDigits ds)

/-- `Number(v)` coercion on the integral fragment we model; `none` is `NaN`.
Strings are accepted when they are (trimmed) signed decimal integers or
empty (JS `Number('') = 0`). -/
def jsNumber : JValue → Option Int
  | .num n => some n
  | .bool b => some (if b then 1 else 0)
  | .null => some 0
  | .nan => none
  | .str s =>
    let cs := (s.data.dropWhile isJsWs).reverse.dropWhile isJsWs |>.reverse
    if cs.isEmpty then some 0
    else
      let signed : Int × List Char :=
        match cs with
        | '-' :: r => (-1, r)
        | '+' :: r => (1, r)
        | _ => (1, cs)
      if signed.2 ≠ [] ∧ signed.2.all Char.isDigit then
        some (signed.1 * natOfDigits signed.2)
      else none
  | .arr _ => none
  | .obj _ => none

/-- JS `Math.round` on a rational input: round half toward positive
infinity. -/
def jsRound (q : ℚ) : Int := Int.floor (q + 1 / 2)

/-! ### Identifier parsing (execution.ts lines 168-174)

`giveFeedback` splits the agent id on `:` and throws unless there are
exactly two non-empty parts; the parts are then handed to `parseInt`
without any `NaN` check, so the components are `Option Int` (`none` =
`NaN`). -/

/-- `cs.split(sep)` on character lists (JS `String.prototype.split` with a
single-character separator): `""` splits to `[""]`, separators at the ends
produce empty parts. -/
def splitOnChar (sep : Char) : List Char → List (List Char)
  | [] => [[]]
  | c :: rest =>
    if c = sep then [] :: splitOnChar sep rest
    else
      match splitOnChar sep rest with
      | h :: t => (c :: h) :: t
      | [] => [[c]]

/-- JS `s.split(sep)` for a one-character separator. -/
def jsSplit (s : String) (sep : Char) : List String :=
  (splitOnChar sep s.data).map String.mk

def invalidAgentIdMsg : String := "Invalid agentId format. Expected chainId:tokenId"

def parseAgentId (s : String) : Except String (Option Int × Option Int) :=
  match jsSplit s ':' with
  | [p0, p1] =>
    if p0 = "" ∨ p1 = "" then .error invalidAgentIdMsg
    else .ok (jsParseIntDec p0, jsParseIntDec p1)
  | _ => .error invalidAgentIdMsg

/-! ### JSON serialization (`JSON.stringify`)

`giveFeedback` hashes `JSON.stringify(feedbackFile, Object.keys(feedbackFile).sort())`.
Per ECMA-262, an *array* replacer is a property allow-list that is applied
to **every** object encountered during serialization (the root included),
and properties are emitted in the order of the replacer array.  That
semantics is `stringifyFiltered` below.  `canonicalJson` is the
serialization the specification describes: compact JSON with each
object's *own* keys sorted lexicographically and nothing dropped. -/

/-- Insertion sort of strings (JS `Array.prototype.sort` on distinct keys). -/
def insertKey (k : String) : List String → List String
  | [] => [k]
  | x :: xs => if k ≤ x then k :: x :: xs else x :: insertKey k xs

def sortKeys : List String → List String
  | [] => []
  | x :: xs => insertKey x (sortKeys xs)

def insertField (p : String × JValue) :
    List (String × JValue) → List (String × JValue)
  | [] => [p]
  | q :: qs => if p.1 ≤ q.1 then p :: q :: qs else q :: insertField p qs

def sortFields : List (String × JValue) → List (String × JValue)
  | [] => []
  | p :: ps => insertField p (sortFields ps)

/-- The properties an array replacer `K` selects from an object, in `K`
order (ECMA-262 SerializeJSONObject with a PropertyList). -/
def selectFields (K : List String) (fs : List (String × JValue)) :
    List (String × JValue) :=
  K.filterMap (fun k => (getKey fs k).map (fun v => (k, v)))

theorem mem_of_insertField {p q : String × JValue} {l : List (String × JValue)}
    (h : q ∈ insertField p l) : q = p ∨ q ∈ l := by
  induction l with
  | nil => simpa [insertField] using h
  | cons x xs ih =>
    by_cases hle : p.1 ≤ x.1
    · simp [insertField, hle] at h
      rcases h with h | h | h
      · exact Or.inl h
      · exact Or.inr (by simp [h])
      · exact Or.inr (by simp [h])
    · simp [insertField, hle] at h
      rcases h with h | h
      · exact Or.inr (by simp [h])
      · rcases ih h with h' | h'
        · exact Or.inl h'
        · exact Or.inr (by simp [h'])

theorem mem_of_sortFields {q : String × JValue} {l : List (String × JValue)}
    (h : q ∈ sortFields l) : q ∈ l := by
  induction l with
  | nil => simp [sortFields] at h
  | cons x xs ih =>
    rcases mem_of_insertField (p := x) (l := sortFields xs) h with h' | h'
    · simp [h']
    · exact List.mem_cons_of_mem _ (ih h')

theorem mem_of_getKey {fs : List (String × JValue)} {k : String} {v : JValue}
    (h : getKey fs k = some v) : (k, v) ∈ fs := by
  unfold getKey at h
  cases hf : fs.find? (fun p => p.1 = k) with
  | none => simp [hf] at h
  | some p =>
    simp [hf] at h
    have hmem := List.mem_of_find?_eq_some hf
    have hkey := List.find?_some hf
    have : p.1 = k := by simpa using hkey
    have : p = (k, v) := by
      cases p with
      | mk a b => simp_all
    simpa [this] using hmem

theorem mem_of_selectFields {K : List String} {fs : List (String × JValue)}
    {q : String × JValue} (h : q ∈ selectFields K fs) : q ∈ fs := by
  unfold selectFields at h
  rcases List.mem_filterMap.mp h with ⟨k, _, hk⟩
  cases hv : getKey fs k with
  | none => simp [hv] at hk
  | some v =>
    simp [hv] at hk
    have := mem_of_getKey hv
    simpa [← hk] using this

/-- One hex digit (lowercase). -/
def hexDigit (n : Nat) : Char :=
  if n < 10 then Char.ofNat ('0'.toNat + n) else Char.ofNat ('a'.toNat + (n - 10))

/-- JSON string-character escaping as performed by `JSON.stringify`. -/
def escapeChar (c : Char) : String :=
  if c = '"' then "\\\""
  else if c = '\\' then "\\\\"
  else if c = '\n' then "\\n"
  else if c = '\r' then "\\r"
  else if c = '\t' then "\\t"
  else if c.toNat = 8 then "\\b"
  else if c.toNat = 12 then "\\f"
  else if c.toNat < 32 then
    "\\u00" ++ String.mk [hexDigit (c.toNat / 16), hexDigit (c.toNat % 16)]
  else String.mk [c]

def jsonQuote (s : String) : String :=
  "\"" ++ String.join (s.data.map escapeChar) ++ "\""

/-- `JSON.stringify(v, K)` with an array replacer `K`: every object's
properties are filtered to, and ordered by, `K`; arrays are unaffected;
`NaN` prints as `null`. -/
def stringifyFiltered (K : List String) : JValue → String
  | .null => "null"
  | .nan => "null"
  | .bool true => "true"
  | .bool false => "false"
  | .num n => toString n
  | .str s => jsonQuote s
  | .arr items =>
    "[" ++ String.intercalate ","
      (items.attach.map (fun x => stringifyFiltered K x.1)) ++ "]"
  | .obj fs =>
    "\x7b" ++ String.intercalate ","
      ((selectFields K fs).attach.map
        (fun x => jsonQuote x.1.1 ++ ":" ++ stringifyFiltered K x.1.2)) ++ "\x7d"
termination_by v => sizeOf v
decreasing_by
  · cases x with
    | mk a ha =>
      have := List.sizeOf_lt_of_mem ha
      simp only [JValue.arr.sizeOf_spec]
      omega
  · cases x with
    | mk a ha =>
      have h1 : a ∈ fs := mem_of_selectFields ha
      have h2 := List.sizeOf_lt_of_mem h1
      cases a with
      | mk k v =>
        simp only [Prod.mk.sizeOf_spec] at h2
        simp only [JValue.obj.sizeOf_spec]
        omega

/-- The canonical serialization described by the specification: compact
JSON, every object's own keys sorted lexicographically, no field dropped. -/
def canonicalJson : JValue → String
  | .null => "null"
  | .nan => "null"
  | .bool true => "true"
  | .bool false => "false"
  | .num n => toString n
  | .str s => jsonQuote s
  | .arr items =>
    "[" ++ String.intercalate ","
      (items.attach.map (fun x => canonicalJson x.1)) ++ "]"
  | .obj fs =>
    "\x7b" ++ String.intercalate ","
      ((sortFields fs).attach.map
        (fun x => jsonQuote x.1.1 ++ ":" ++ canonicalJson x.1.2)) ++ "\x7d"
termination_by v => sizeOf v
decreasing_by
  · cases x with
    | mk a ha =>
      have := List.sizeOf_lt_of_mem ha
      simp only [JValue.arr.sizeOf_spec]
      omega
  · cases x with
    | mk a ha =>
      have h1 : a ∈ fs := mem_of_sortFields ha
      have h2 := List.sizeOf_lt_of_mem h1
      cases a with
      | mk k v =>
        simp only [Prod.mk.sizeOf_spec] at h2
        simp only [JValue.obj.sizeOf_spec]
        omega

/-- The exact serialization `giveFeedback` hashes:
`JSON.stringify(file, Object.keys(file).sort())`. -/
def serializeForHash (file : List (String × JValue)) : String :=
  stringifyFiltered (sortKeys (file.map Prod.fst)) (.obj file)

/-! ### Bytes, UTF-8 and hex (ethers `hexlify` / `toUtf8Bytes`) -/

/-- UTF-8 encoding of one character (what `TextEncoder.encode` emits). -/
def utf8EncodeChar (c : Char) : List Nat :=
  let n := c.toNat
  if n < 0x80 then [n]
  else if n < 0x800 then
    [0xC0 ||| (n >>> 6), 0x80 ||| (n &&& 0x3F)]
  else if n < 0x10000 then
    [0xE0 ||| (n >>> 12), 0x80 ||| ((n >>> 6) &&& 0x3F), 0x80 ||| (n &&& 0x3F)]
  else
    [0xF0 ||| (n >>> 18), 0x80 ||| ((n >>> 12) &&& 0x3F),
     0x80 ||| ((n >>> 6) &&& 0x3F), 0x80 ||| (n &&& 0x3F)]

def utf8Bytes (s : String) : List Nat :=
  (s.data.map utf8EncodeChar).flatten

def byteToHex (b : Nat) : String :=
  String.mk [hexDigit (b % 256 / 16), hexDigit (b % 16)]

/-- Hex digits of a byte list, without the `0x` tag. -/
def hexDigits (bs : List Nat) : String :=
  String.join (bs.map byteToHex)

/-- `ethers.hexlify`: `0x`-tagged lowercase hex of a byte list. -/
def hexOfBytes (bs : List Nat) : String := "0x" ++ hexDigits bs

/-- JS `s.startsWith('0x')`, decided on the character list. -/
def hasHexTag (s : String) : Bool :=
  match s.data with
  | '0' :: 'x' :: _ => true
  | _ => false

/-- JS `s.slice(2)` on an ASCII string. -/
def sliceTwo (s : String) : String := String.mk (s.data.drop 2)

/-- `stringToBytes32` (execution.ts lines 411-423): empty string maps to 32
zero bytes; otherwise UTF-8 encode, truncate to 32 bytes, and zero-pad on
the right to exactly 32 bytes. -/
def stringToBytes32 (s : String) : List Nat :=
  if s = "" then List.replicate 32 0
  else
    let taken := (utf8Bytes s).take 32
    taken ++ List.replicate (32 - taken.length) 0

/-! ### Authorization signing (execution.ts lines 311-347) -/

/-- One 32-byte big-endian ABI word of an unsigned value (addresses are
modelled by their 160-bit numeric value, left-padded like any `uint`). -/
def beWord32 (n : Nat) : List Nat :=
  (List.range 32).map (fun i => n / 256 ^ (31 - i) % 256)

/-- `abi.encode(['uint256','address','uint256','uint256','uint256','address','address'], ...)`
over the 7-tuple, in the exact order the source lists the values. -/
def abiEncodeFeedbackAuth (tokenId submitter indexLimit expiry networkId
    registry signer : Nat) : List Nat :=
  beWord32 tokenId ++ beWord32 submitter ++ beWord32 indexLimit ++
  beWord32 expiry ++ beWord32 networkId ++ beWord32 registry ++ beWord32 signer

/-- `signFeedbackAuth`.  `keccak` is Keccak-256 on bytes; `signMessage` is
the wallet's prefixed (EIP-191 personal-message) signing scheme, applied by
the source to the bytes of the Keccak hash of the encoded tuple.
`nowMillis` is `Date.now()`; the default expiry horizon is 24 hours. -/
def signFeedbackAuth (keccak signMessage : List Nat → List Nat)
    (nowMillis : Nat) (tokenId submitter indexLimit networkId registry
    signer : Nat) (expiryHours : Option Nat) : String :=
  let expiry := nowMillis / 1000 + (expiryHours.getD 24) * 3600
  let authBytes := abiEncodeFeedbackAuth tokenId submitter indexLimit expiry
    networkId registry signer
  let authData := hexOfBytes authBytes
  let signature := hexOfBytes (signMessage (keccak authBytes))
  let authNoTag := if hasHexTag authData then sliceTwo authData else authData
  let sigNoTag := if hasHexTag signature then sliceTwo signature else signature
  "0x" ++ authNoTag ++ sigNoTag

/-! ### Nonce resolution (execution.ts lines 202-213) -/

/-- The index-resolution step of `giveFeedback`: `getLastIndex` succeeding
with `last` gives `last + 1`; *any* throw inside the `try` (network error,
revert, missing method) is caught and yields `1`. -/
def resolveFeedbackIndex {ε : Type} (read : Except ε Nat) : Nat :=
  match read with
  | .ok last => last + 1
  | .error _ => 1

/-! ### prepareFeedback (execution.ts lines 352-406) -/

/-- Render a JS number in a template literal (`NaN` prints as "NaN"). -/
def renderNum : Option Int → String
  | some n => toString n
  | none => "NaN"

def numOrNaN : Option Int → JValue
  | some n => .num n
  | none => .nan

/-- Drop the `undefined` entries (the source also drops `null`; none of the
constructed values is `null`, so the `Option` filter models both). -/
def cleanFields : List (String × Option JValue) → List (String × JValue)
  | [] => []
  | (k, some v) :: rest => (k, v) :: cleanFields rest
  | (_, none) :: rest => cleanFields rest

/-- `prepareFeedback`.  Parameters follow the source signature; `createdAt`
stands for `new Date().toISOString()` (the clock effect) and is passed
explicitly.  The `_textParam` argument is accepted and ignored, exactly as
in the source.  Throws (`Except.error`) unless the agent id splits into
two parts with a non-empty second part. -/
def prepareFeedback (agentId : String) (clientAddress : String)
    (chainId : Option Int) (identityRegistryAddress : String)
    (score : Option ℚ) (tags : Option (List String))
    (_textParam : Option String) (capability : Option String)
    (nameField : Option String) (skill : Option String)
    (task : Option String) (context : Option (List (String × JValue)))
    (proofOfPayment : Option (List (String × JValue)))
    (extra : Option (List (String × JValue)))
    (createdAt : String) : Except String (List (String × JValue)) :=
  match jsSplit agentId ':' with
  | [_, p1] =>
    if p1 = "" then .error "Invalid agentId format in prepareFeedback"
    else
      let tokenId := jsParseIntDec p1
      let tagsArray := tags.getD []
      let base : List (String × Option JValue) :=
        [("agentRegistry", some (.str ("eip155:" ++ renderNum chainId ++ ":"
            ++ identityRegistryAddress))),
         ("agentId", some (numOrNaN tokenId)),
         ("clientAddress", some (.str ("eip155:" ++ renderNum chainId ++ ":"
            ++ clientAddress))),
         ("createdAt", some (.str createdAt)),
         ("feedbackAuth", some (.str "")),
         ("score", some (.num (match score with
            | some q => jsRound q
            | none => 0))),
         ("tag1", match tagsArray.head? with
            | some t => if t = "" then none else some (.str t)
            | none => none),
         ("tag2", if 1 < tagsArray.length then some (.str (tagsArray.getD 1 ""))
            else none),
         ("skill", skill.map .str),
         ("context", context.map .obj),
         ("task", task.map .str),
         ("capability", capability.map .str),
         ("name", nameField.map .str),
         ("proofOfPayment", proofOfPayment.map .obj)]
      let cleaned := cleanFields base
      .ok (match extra with
        | some e => assign cleaned e
        | none => cleaned)
  | _ => .error "Invalid agentId format in prepareFeedback"

/-! ### giveFeedback (execution.ts lines 151-306)

The deterministic core of `giveFeedback`, with every effect passed in:
`lastIndexRead` is the outcome of the `getLastIndex` contract read,
`upload` the outcome of the Pinata upload, `keccakHex` is
`ethers.keccak256 ∘ ethers.toUtf8Bytes` on the serialized record,
`authToken` the string `signFeedbackAuth` produced, and `submit` the
on-chain `giveFeedback` transaction send plus `tx.wait()`. -/

structure FeedbackParams where
  agentId : String
  score : Option ℚ := none
  tags : Option (List String) := none
  textField : Option String := none
  capability : Option String := none
  nameField : Option String := none
  skill : Option String := none
  task : Option String := none
  context : Option (List (String × JValue)) := none
  proofOfPayment : Option (List (String × JValue)) := none
  extra : Option (List (String × JValue)) := none

/-- The argument tuple handed to the on-chain `giveFeedback` method. -/
structure SubmitArgs where
  tokenId : Int
  score : Option Int
  tag1 : List Nat
  tag2 : List Nat
  feedbackUri : String
  feedbackHash : String
  feedbackAuth : String
deriving Repr, DecidableEq

/-- `'0x' + '00'.repeat(32)`. -/
def zeroHashHex : String := hexOfBytes (List.replicate 32 0)

structure PreparedSubmission where
  args : SubmitArgs
  feedbackIndex : Nat
  feedbackFile : List (String × JValue)

/-- Everything `giveFeedback` does before the transaction is sent: registry
lookup, id parsing, index resolution, record construction, auth injection,
on-chain score/tag extraction and the URI/hash resolution (lines 161-275).
`registries` is `DEFAULT_REGISTRIES[chainId]` as `(IDENTITY, REPUTATION)`;
`none` models a chain with no (or an incomplete) registry entry. -/
def buildSubmitArgs (registries : Option (String × String))
    (params : FeedbackParams) (clientAddress : String) (createdAt : String)
    (pinataJwt : Option String) (lastIndexRead : Except Unit Nat)
    (upload : Except Unit String) (keccakHex : String → String)
    (authToken : String) : Except String PreparedSubmission :=
  match registries with
  | none => .error "No default registries found for chainId"
  | some (identityRegistryAddress, _) =>
    match parseAgentId params.agentId with
    | .error e => .error e
    | .ok (chainId, tokenId) =>
      let feedbackIndex := resolveFeedbackIndex lastIndexRead
      match prepareFeedback params.agentId clientAddress chainId
          identityRegistryAddress params.score params.tags params.textField
          params.capability params.nameField params.skill params.task
          params.context params.proofOfPayment params.extra createdAt with
      | .error e => .error e
      | .ok file0 =>
        match tokenId, chainId with
        | some tok, some _ =>
          let file := setKey file0 "feedbackAuth" (.str authToken)
          let score : Option Int :=
            match getKey file "score" with
            | some v => jsNumber v
            | none => some 0
          let tag1 := stringToBytes32 ((params.tags.getD []).getD 0 "")
          let tag2 := stringToBytes32 ((params.tags.getD []).getD 1 "")
          let uriHash : String × String :=
            match pinataJwt with
            | none => ("", zeroHashHex)
            | some _ =>
              match upload with
              | .ok cid => ("ipfs://" ++ cid, keccakHex (serializeForHash file))
              | .error _ => ("", zeroHashHex)
          .ok ⟨⟨tok, score, tag1, tag2, uriHash.1, uriHash.2, authToken⟩,
               feedbackIndex, file⟩
        | _, _ =>
          -- `signFeedbackAuth` calls `BigInt(tokenId)` / `BigInt(chainId)`,
          -- which throws a RangeError when `parseInt` produced `NaN`.
          .error "RangeError: NaN cannot be converted to a BigInt"

structure GiveFeedbackOutcome where
  transactionHash : String
  blockNumber : Nat
  feedbackIndex : Nat
  feedbackFile : List (String × JValue)
  feedbackUri : String

/-- `giveFeedback` end to end: build the submission, send it, await the
receipt, and return the result object of lines 299-305. -/
def giveFeedbackCore (registries : Option (String × String))
    (params : FeedbackParams) (clientAddress : String) (createdAt : String)
    (pinataJwt : Option String) (lastIndexRead : Except Unit Nat)
    (upload : Except Unit String) (keccakHex : String → String)
    (authToken : String)
    (submit : SubmitArgs → Except String (String × Nat)) :
    Except String GiveFeedbackOutcome :=
  match buildSubmitArgs registries params clientAddress createdAt pinataJwt
      lastIndexRead upload keccakHex authToken with
  | .error e => .error e
  | .ok prep =>
    match submit prep.args with
    | .error e => .error e
    | .ok (txHash, blockNumber) =>
      .ok ⟨txHash, blockNumber, prep.feedbackIndex, prep.feedbackFile,
           prep.args.feedbackUri⟩

/-! ### IPFSClient.get (part_003 lines 90-126)

All candidate gateway URLs are fetched concurrently; `Promise.allSettled`
returns the settlement results **in the original list order** regardless of
completion times, and the loop returns the first fulfilled one.  A fetch is
modelled as `fetchAt : url → (settleTime, outcome)`; the settle time is
carried so the theorems can state that it is irrelevant. -/

/-- JS `a || b` for a possibly-absent string (empty string is falsy). -/
def jsOrDefault (a : Option String) (d : String) : String :=
  match a with
  | some x => if x = "" then d else x
  | none => d

/-- `pat` is a leading segment of `cs` (JS `startsWith`). -/
def startsWithChars : List Char → List Char → Bool
  | [], _ => true
  | _ :: _, [] => false
  | p :: ps, c :: cs => p = c && startsWithChars ps cs

/-- `cid.startsWith('ipfs://') ? cid.slice(7) : cid` (part_003 lines 92-94). -/
def dropIpfsScheme (cid : String) : String :=
  if startsWithChars "ipfs://".data cid.data then String.mk (cid.data.drop 7)
  else cid

/-- `gateway.replace(/\/$/, '')`: remove one trailing slash if present. -/
def stripTrailingSlash (s : String) : String :=
  match s.data.getLast? with
  | some '/' => String.mk s.data.dropLast
  | _ => s

/-- The candidate URL list: the configured gateway (defaulting to the Pinata
public gateway) first, then the `IPFS_GATEWAYS` fallback list (a constant
from `utils/constants`, not under `src/`, passed here as `fallbacks`). -/
def gatewayUrls (cfgGateway : Option String) (fallbacks : List String)
    (cid : String) : List String :=
  let c := dropIpfsScheme cid
  (jsOrDefault cfgGateway "https://gateway.pinata.cloud" :: fallbacks).map
    (fun g => stripTrailingSlash g ++ "/ipfs/" ++ c)

/-- `Promise.allSettled`: settlement results in original order; the settle
times (first components) do not influence the output. -/
def promiseAllSettled {α : Type} (jobs : List (Nat × α)) : List α :=
  jobs.map Prod.snd

/-- The scan of lines 119-123: first fulfilled settlement wins. -/
def firstFulfilled : List (Except Unit String) → Option String
  | [] => none
  | .ok v :: _ => some v
  | .error _ :: rest => firstFulfilled rest

def ipfsGetFailMsg : String := "Failed to retrieve data from all IPFS gateways"

def ipfsGet (cfgGateway : Option String) (fallbacks : List String)
    (cid : String) (fetchAt : String → Nat × Except Unit String) :
    Except String String :=
  let results := promiseAllSettled
    ((gatewayUrls cfgGateway fallbacks cid).map fetchAt)
  match firstFulfilled results with
  | some v => .ok v
  | none => .error ipfsGetFailMsg

/-! ### EndpointCrawler, path-cascade variant (part_002 lines 86-163) -/

/-- Loop body for `tools` / `prompts` entries: objects carrying a `name`
property contribute that property's value. -/
def namedItemStep (it : JValue) (acc : List JValue) : List JValue :=
  match it with
  | .obj fs =>
    match getKey fs "name" with
    | some n => n :: acc
    | none => acc
  | _ => acc

/-- Name extraction for `tools` / `prompts` replies. -/
def namesFromNamedList (reply : Option JValue) (listKey : String) :
    List JValue :=
  match reply with
  | some t =>
    match jvGetField t listKey with
    | some (.arr items) => items.foldr namedItemStep []
    | _ => []
  | none => []

/-- Loop body for `resources` entries: `resource.uri || resource.name`,
kept only when truthy. -/
def resourceItemStep (it : JValue) (acc : List JValue) : List JValue :=
  match it with
  | .obj fs =>
    match jsOr (getKey fs "uri") (getKey fs "name") with
    | some v => if jvTruthy v then v :: acc else acc
    | none => acc
  | _ => acc

/-- Name extraction for `resources` replies. -/
def namesFromResourceList (reply : Option JValue) : List JValue :=
  match reply with
  | some t =>
    match jvGetField t "resources" with
    | some (.arr items) => items.foldr resourceItemStep []
    | _ => []
  | none => []

structure McpCapabilities where
  mcpTools : Option (List JValue) := none
  mcpResources : Option (List JValue) := none
  mcpPrompts : Option (List JValue) := none

/-- One iteration of the path loop (lines 94-156): the three JSON-RPC calls
(`rpc url method`, issued concurrently by `Promise.all`; `none` is the
`null` `_jsonRpcCall` returns on any failure), the three name extractions,
and the non-empty check.  Returns `none` when every list is empty. -/
def tryRpcPath (rpc : String → String → Option JValue) (url : String) :
    Option McpCapabilities :=
  let mcpTools := namesFromNamedList (rpc url "tools/list") "tools"
  let mcpResources := namesFromResourceList (rpc url "resources/list")
  let mcpPrompts := namesFromNamedList (rpc url "prompts/list") "prompts"
  if mcpTools.length ≠ 0 ∨ mcpResources.length ≠ 0 ∨ mcpPrompts.length ≠ 0 then
    some { mcpTools := if 0 < mcpTools.length then some mcpTools else none,
           mcpResources := if 0 < mcpResources.length then some mcpResources
             else none,
           mcpPrompts := if 0 < mcpPrompts.length then some mcpPrompts
             else none }
  else none

def mcpPathSuffixes : List String := ["", "/mcp", "/sse"]

/-- `_fetchViaJsonRpc` of part_002: try the path suffixes in order and
return the first path whose capability extraction is non-empty. -/
def fetchViaJsonRpcPaths (rpc : String → String → Option JValue)
    (httpUrl : String) : Option McpCapabilities :=
  (mcpPathSuffixes.map (fun p => stripTrailingSlash httpUrl ++ p)).findSome?
    (tryRpcPath rpc)

/-! ### EndpointCrawler, sequential-GET variant (part_001 lines 89-121) -/

structure RawMcpResult where
  mcpTools : JValue
  mcpResources : JValue
  mcpPrompts : JValue

/-- `_fetchViaJsonRpc` of part_001: three sequential GETs against
`<url>/tools`, `<url>/resources`, `<url>/prompts`; any failure yields
`null`, otherwise the three raw JSON bodies are returned unfiltered —
no path cascade and no emptiness check. -/
def fetchViaJsonRpcSeq (httpGet : String → Except Unit JValue)
    (httpUrl : String) : Option RawMcpResult :=
  match httpGet (httpUrl ++ "/tools") with
  | .error _ => none
  | .ok tools =>
    match httpGet (httpUrl ++ "/resources") with
    | .error _ => none
    | .ok resources =>
      match httpGet (httpUrl ++ "/prompts") with
      | .error _ => none
      | .ok prompts => some ⟨tools, resources, prompts⟩

/-! ### `_extractList` (part_001 lines 236-285 = part_002 lines 282-331) -/

/-- First of `name`/`id`/`identifier`/`title` holding a *string* value. -/
def firstNameField (fs : List (String × JValue)) : Option String :=
  match getKey fs "name" with
  | some (.str s) => some s
  | _ =>
    match getKey fs "id" with
    | some (.str s) => some s
    | _ =>
      match getKey fs "identifier" with
      | some (.str s) => some s
      | _ =>
        match getKey fs "title" with
        | some (.str s) => some s
        | _ => none

/-- The per-item collection loop shared by the top-level and container
scans: strings are kept as-is, objects contribute their first name-ish
string field, everything else is skipped. -/
def nameItemStep (it : JValue) (acc : List String) : List String :=
  match it with
  | .str s => s :: acc
  | .obj fs =>
    match firstNameField fs with
    | some s => s :: acc
    | none => acc
  | _ => acc

def namesFromItems (items : List JValue) : List String :=
  items.foldr nameItemStep []

def containerKeys : List String := ["capabilities", "abilities", "features"]

/-- The nested-container fallback scan: the first container that is a
truthy object and yields a non-empty list wins; containers that are not
objects, or hold no array under `key`, are skipped. -/
def containersScan (fields : List (String × JValue)) (key : String) :
    List String → List String
  | [] => []
  | ck :: rest =>
    match getKey fields ck with
    | some (.obj cf) =>
      let r := match getKey cf key with
        | some (.arr items) => namesFromItems items
        | _ => []
      if r.length ≠ 0 then r else containersScan fields key rest
    | _ => containersScan fields key rest

/-- `_extractList(data, key)` on an object document: try the top-level
`key`, then the `capabilities`/`abilities`/`features` containers. -/
def extractList (fields : List (String × JValue)) (key : String) :
    List String :=
  let top := match getKey fields key with
    | some (.arr items) => namesFromItems items
    | _ => []
  if top.length ≠ 0 then top else containersScan fields key containerKeys

/-! ## Helper lemmas -/

theorem foldl_append_eq (l : List String) :
    ∀ (a : String), l.foldl (· ++ ·) a = a ++ String.join l := by
  induction l with
  | nil => intro a; simp [String.join, String.append_empty]
  | cons x t ih =>
    intro a
    have h1 : (x :: t).foldl (· ++ ·) a = t.foldl (· ++ ·) (a ++ x) := rfl
    rw [h1, ih]
    have h2 : String.join (x :: t) = t.foldl (· ++ ·) ("" ++ x) := rfl
    rw [h2, ih, String.empty_append, String.append_assoc]

theorem join_append (l1 l2 : List String) :
    String.join (l1 ++ l2) = String.join l1 ++ String.join l2 := by
  have h : String.join (l1 ++ l2) = (l1 ++ l2).foldl (· ++ ·) "" := rfl
  rw [h, List.foldl_append, foldl_append_eq l1 "", foldl_append_eq l2,
    String.empty_append]

theorem hexDigits_append (a b : List Nat) :
    hexDigits (a ++ b) = hexDigits a ++ hexDigits b := by
  unfold hexDigits
  rw [List.map_append, join_append]

theorem hasHexTag_tagged (t : String) : hasHexTag ("0x" ++ t) = true := by
  unfold hasHexTag
  have h : ("0x" ++ t).data = '0' :: 'x' :: t.data := by
    rw [String.data_append]; rfl
  rw [h]
  rfl

theorem sliceTwo_hexTagged (t : String) : sliceTwo ("0x" ++ t) = t := by
  unfold sliceTwo
  have h : ("0x" ++ t).data = '0' :: 'x' :: t.data := by
    rw [String.data_append]; rfl
  rw [h]
  rfl

/-! ## Claims -/

/-- C1: `signFeedbackAuth` returns exactly the ABI encoding of the 7-tuple
(tokenId, submitterAddress, indexLimit, expiryUnixSeconds, networkId,
registryAddress, signerAddress) — with `expiryUnixSeconds = now +
expiryHours*3600` and `expiryHours` defaulting to 24 — concatenated with no
separator to the prefixed-message-scheme signature over the Keccak-256 hash
of those encoded bytes. -/
theorem c1_signFeedbackAuth_token_layout (keccak signMessage : List Nat → List Nat)
    (nowMillis tokenId submitter indexLimit networkId registry signer : Nat)
    (expiryHours : Option Nat) :
    signFeedbackAuth keccak signMessage nowMillis tokenId submitter indexLimit
        networkId registry signer expiryHours =
      hexOfBytes
        (abiEncodeFeedbackAuth tokenId submitter indexLimit
            (nowMillis / 1000 + (expiryHours.getD 24) * 3600) networkId registry
            signer ++
          signMessage (keccak (abiEncodeFeedbackAuth tokenId submitter indexLimit
            (nowMillis / 1000 + (expiryHours.getD 24) * 3600) networkId registry
            signer))) := by
  simp [signFeedbackAuth, hexOfBytes, hasHexTag_tagged, sliceTwo_hexTagged,
    hexDigits_append, String.append_assoc]

/-- C3 counterexample: the `agentId` check of `giveFeedback` accepts
`"abc:def"` (no integer-parseability check is performed; `parseInt` yields
`NaN` without an `InvalidIdentifier` error) and also accepts the negative
`"-5:3"`, contradicting the claim that every string without two
non-negative-integer parts fails with `InvalidIdentifier`. -/
theorem c3_parseAgentId_counterexample :
    parseAgentId "abc:def" = .ok (none, none) ∧
    parseAgentId "-5:3" = .ok (some (-5), some 3) := by
  constructor <;> rfl

/-- C3 (amended): the check succeeds exactly on strings that split on `:`
into exactly two non-empty parts; the parts are then converted with decimal
`parseInt`, which may yield `NaN` (`none`) for non-numeric parts and
accepts signed numerals — no `InvalidIdentifier` error is raised for
those. -/
theorem c3_parseAgentId_amended (s : String) :
    ((parseAgentId s).isOk = true ↔
      ∃ a b, jsSplit s ':' = [a, b] ∧ a ≠ "" ∧ b ≠ "") ∧
    (∀ a b, jsSplit s ':' = [a, b] → a ≠ "" → b ≠ "" →
      parseAgentId s = .ok (jsParseIntDec a, jsParseIntDec b)) ∧
    ((parseAgentId s).isOk = false →
      parseAgentId s = .error invalidAgentIdMsg) := by
  unfold parseAgentId
  cases h : jsSplit s ':' with
  | nil =>
    refine ⟨?_, ?_, ?_⟩
    · simp [Except.isOk, Except.toBool]
    · intro a b hab; exact absurd hab (by simp)
    · intro _; rfl
  | cons a t =>
    cases t with
    | nil =>
      refine ⟨?_, ?_, ?_⟩
      · simp [Except.isOk, Except.toBool]
      · intro a' b' hab; exact absurd hab (by simp)
      · intro _; rfl
    | cons b t2 =>
      cases t2 with
      | nil =>
        by_cases hc : a = "" ∨ b = ""
        · simp only [if_pos hc]
          refine ⟨?_, ?_, ?_⟩
          · constructor
            · intro hfalse; simp [Except.isOk, Except.toBool] at hfalse
            · rintro ⟨a', b', hab, ha', hb'⟩
              injection hab with h1 h2
              injection h2 with h2 _
              rcases hc with hc | hc
              · exact absurd (h1 ▸ hc) ha'
              · exact absurd (h2 ▸ hc) hb'
          · intro a' b' hab ha' hb'
            injection hab with h1 h2
            injection h2 with h2 _
            rcases hc with hc | hc
            · exact absurd (h1 ▸ hc) ha'
            · exact absurd (h2 ▸ hc) hb'
          · intro _; trivial
        · simp only [if_neg hc]
          push_neg at hc
          refine ⟨?_, ?_, ?_⟩
          · constructor
            · intro _; exact ⟨a, b, rfl, hc.1, hc.2⟩
            · intro _; rfl
          · intro a' b' hab _ _
            injection hab with h1 h2
            injection h2 with h2 _
            rw [h1, h2]
          · intro hfalse; simp [Except.isOk, Except.toBool] at hfalse
      | cons c t3 =>
        refine ⟨?_, ?_, ?_⟩
        · simp [Except.isOk, Except.toBool]
        · intro a' b' hab; exact absurd hab (by simp)
        · intro _; rfl

/-- C3 witness: a well-formed identifier is accepted and decoded. -/
theorem c3_parseAgentId_amended_witness :
    parseAgentId "11155111:42" = .ok (some 11155111, some 42) := by
  have h := (c3_parseAgentId_amended "11155111:42").2.1 "11155111" "42"
    (by rfl) (by decide) (by decide)
  rw [h]
  rfl

/-- The nested context object of the C2 failing input (the README's own
example context shape). -/
def c2context : List (String × JValue) := [("sessionId", JValue.str "abc123")]

/-- The feedback record of the C2 failing input: built by `prepareFeedback`
for agent `11155111:42`, score 5, one tag, and a nested `context` object,
with the auth token injected as `giveFeedback` does before hashing. -/
def c2file : List (String × JValue) :=
  match prepareFeedback "11155111:42" "0xClientAddr" (some 11155111)
      "0xRegistryAddr" (some 5) (some ["helpful"]) none none none none none
      (some c2context) none none "2026-01-01T00:00:00.000Z" with
  | .ok f => setKey f "feedbackAuth" (.str "0xAUTH")
  | .error _ => []

/-- C2 (code bug): the hashed serialization
`JSON.stringify(file, Object.keys(file).sort())` applies the sorted
top-level key list as a property *filter* to every nested object, so the
nested `context.sessionId` field is silently dropped (`"context":{}`),
while the canonical sorted-keys serialization the claim and spec describe
retains it; the two serializations (and hence the Keccak-256 hashes)
disagree on this record. -/
theorem c2_replacer_truncates_serialization :
    serializeForHash c2file =
      "\x7b\"agentId\":42,\"agentRegistry\":\"eip155:11155111:0xRegistryAddr\",\"clientAddress\":\"eip155:11155111:0xClientAddr\",\"context\":\x7b\x7d,\"createdAt\":\"2026-01-01T00:00:00.000Z\",\"feedbackAuth\":\"0xAUTH\",\"score\":5,\"tag1\":\"helpful\"\x7d" ∧
    canonicalJson (.obj c2file) =
      "\x7b\"agentId\":42,\"agentRegistry\":\"eip155:11155111:0xRegistryAddr\",\"clientAddress\":\"eip155:11155111:0xClientAddr\",\"context\":\x7b\"sessionId\":\"abc123\"\x7d,\"createdAt\":\"2026-01-01T00:00:00.000Z\",\"feedbackAuth\":\"0xAUTH\",\"score\":5,\"tag1\":\"helpful\"\x7d" ∧
    serializeForHash c2file ≠ canonicalJson (.obj c2file) := by
  have hr : jsRound 5 = 5 := by norm_num [jsRound]
  have h1 : serializeForHash c2file =
      "\x7b\"agentId\":42,\"agentRegistry\":\"eip155:11155111:0xRegistryAddr\",\"clientAddress\":\"eip155:11155111:0xClientAddr\",\"context\":\x7b\x7d,\"createdAt\":\"2026-01-01T00:00:00.000Z\",\"feedbackAuth\":\"0xAUTH\",\"score\":5,\"tag1\":\"helpful\"\x7d" := by
    simp [serializeForHash, c2file, c2context, prepareFeedback, jsSplit,
      splitOnChar, jsParseIntDec, digitsHead, natOfDigits, isJsWs, hr,
      cleanFields, setKey, sortKeys, insertKey, stringifyFiltered,
      selectFields, getKey, List.attach, List.attachWith, jsonQuote,
      escapeChar, renderNum, numOrNaN]
    rfl
  have h2 : canonicalJson (.obj c2file) =
      "\x7b\"agentId\":42,\"agentRegistry\":\"eip155:11155111:0xRegistryAddr\",\"clientAddress\":\"eip155:11155111:0xClientAddr\",\"context\":\x7b\"sessionId\":\"abc123\"\x7d,\"createdAt\":\"2026-01-01T00:00:00.000Z\",\"feedbackAuth\":\"0xAUTH\",\"score\":5,\"tag1\":\"helpful\"\x7d" := by
    simp [canonicalJson, c2file, c2context, prepareFeedback, jsSplit,
      splitOnChar, jsParseIntDec, digitsHead, natOfDigits, isJsWs, hr,
      cleanFields, setKey, sortFields, insertField, getKey, List.attach,
      List.attachWith, jsonQuote, escapeChar, renderNum, numOrNaN]
    rfl
  refine ⟨h1, h2, ?_⟩
  rw [h1, h2]
  decide

/-- C4: the feedback-index resolution of `giveFeedback` returns
`lastIndex + 1` when the `getLastIndex` read succeeds, and `1` — without
propagating the error — when it fails for any reason. -/
theorem c4_resolveFeedbackIndex_spec :
    (∀ (ε : Type) (last : Nat),
      resolveFeedbackIndex (Except.ok last : Except ε Nat) = last + 1) ∧
    (∀ (ε : Type) (e : ε),
      resolveFeedbackIndex (Except.error e : Except ε Nat) = 1) ∧
    resolveFeedbackIndex (Except.ok 7 : Except Unit Nat) = 8 := by
  exact ⟨fun _ _ => rfl, fun _ _ => rfl, rfl⟩

/-- C5: when the Pinata upload fails, `giveFeedback` does not abort; it
proceeds with an empty content URI and a 32-zero-byte hash, and the
submission and confirmation steps still execute, returning the receipt. -/
theorem c5_upload_failure_nonfatal (regs : String × String)
    (params : FeedbackParams) (client createdAt jwt : String)
    (read : Except Unit Nat) (keccakHex : String → String) (auth : String)
    (tx : String) (bn : Nat) (a b : String) (ca tb : Int)
    (submit : SubmitArgs → Except String (String × Nat))
    (hsplit : jsSplit params.agentId ':' = [a, b]) (ha : a ≠ "") (hb : b ≠ "")
    (hca : jsParseIntDec a = some ca) (htb : jsParseIntDec b = some tb)
    (hsubmit : ∀ args, submit args = .ok (tx, bn)) :
    (buildSubmitArgs (some regs) params client createdAt (some jwt) read
        (.error ()) keccakHex auth).map
      (fun p => (p.args.feedbackUri, p.args.feedbackHash)) =
      .ok ("", zeroHashHex) ∧
    (giveFeedbackCore (some regs) params client createdAt (some jwt) read
        (.error ()) keccakHex auth submit).map
      (fun o => (o.transactionHash, o.blockNumber, o.feedbackUri)) =
      .ok (tx, bn, "") := by
  constructor
  · simp [buildSubmitArgs, parseAgentId, prepareFeedback, hsplit, ha, hb,
      hca, htb, Except.map]
  · simp [giveFeedbackCore, buildSubmitArgs, parseAgentId, prepareFeedback,
      hsplit, ha, hb, hca, htb, hsubmit, Except.map]

/-- C5 witness: the spec's end-to-end example — agent `11155111:42`, score
97, two tags, failing registry read — with a failing upload still reaches
submission and confirmation. -/
theorem c5_upload_failure_nonfatal_witness :
    (giveFeedbackCore (some ("0xIdReg", "0xRepReg"))
        { agentId := "11155111:42", score := some 97,
          tags := some ["helpful", "fast"] } "0xClient" "t" (some "jwt")
        (.error ()) (.error ()) (fun _ => "") "0xAUTH"
        (fun _ => .ok ("0xTX", 123))).map
      (fun o => (o.transactionHash, o.blockNumber, o.feedbackUri)) =
      .ok ("0xTX", 123, "") := by
  exact (c5_upload_failure_nonfatal ("0xIdReg", "0xRepReg")
    { agentId := "11155111:42", score := some 97,
      tags := some ["helpful", "fast"] } "0xClient" "t" "jwt" (.error ())
    (fun _ => "") "0xAUTH" "0xTX" 123 "11155111" "42" 11155111 42
    (fun _ => .ok ("0xTX", 123)) (by rfl) (by decide) (by decide) (by rfl)
    (by rfl) (fun _ => rfl)).2

/-- C6 counterexample: an out-of-range input score is *not* clamped to
0–100: `prepareFeedback` with score 150 stores 150 in the record. -/
theorem c6_score_not_clamped_counterexample :
    (prepareFeedback "1:2" "0xClient" (some 1) "0xRegistry" (some 150) none
        none none none none none none none none "t").map
      (fun f => getKey f "score") = .ok (some (.num 150)) ∧
    ¬ ((150 : Int) ≤ 100) := by
  constructor
  · have hr : jsRound 150 = 150 := by norm_num [jsRound]
    simp [prepareFeedback, jsSplit, splitOnChar, cleanFields, getKey, hr,
      Except.map, List.find?]
  · decide

/-- C6 (amended): the record's score is the input rounded to the nearest
integer (`Math.round`), with *no* clamping to 0-100; an absent score
defaults to the integer 0.  (Stated before any `extra` merge, which may
override the field.) -/
theorem c6_score_rounded_not_clamped (agentId clientAddress : String)
    (chainId : Option Int) (reg : String) (q : ℚ) (tags : Option (List String))
    (txt cap nm sk tk : Option String)
    (ctx pop : Option (List (String × JValue))) (createdAt : String)
    (x p1 : String) (hsplit : jsSplit agentId ':' = [x, p1]) (hp : p1 ≠ "") :
    (prepareFeedback agentId clientAddress chainId reg (some q) tags txt cap
        nm sk tk ctx pop none createdAt).map (fun f => getKey f "score") =
      .ok (some (.num (jsRound q))) ∧
    (prepareFeedback agentId clientAddress chainId reg none tags txt cap
        nm sk tk ctx pop none createdAt).map (fun g => getKey g "score") =
      .ok (some (.num 0)) := by
  unfold prepareFeedback
  rw [hsplit]
  constructor <;> simp [hp, cleanFields, getKey, Except.map]

/-- C6 witness: the amended statement at score 150 / no score. -/
theorem c6_score_rounded_not_clamped_witness :
    (prepareFeedback "1:2" "0xClient" (some 1) "0xRegistry" (some 150) none
        none none none none none none none none "t").map
      (fun f => getKey f "score") = .ok (some (.num (jsRound 150))) ∧
    (prepareFeedback "1:2" "0xClient" (some 1) "0xRegistry" none none
        none none none none none none none none "t").map
      (fun g => getKey g "score") = .ok (some (.num 0)) := by
  exact c6_score_rounded_not_clamped "1:2" "0xClient" (some 1) "0xRegistry"
    150 none none none none none none none none "t" "1" "2" (by rfl)
    (by decide)

theorem firstFulfilled_skip_errors (pre rest : List (Except Unit String))
    (v : String) (hpre : ∀ r ∈ pre, r = .error ()) :
    firstFulfilled (pre ++ .ok v :: rest) = some v := by
  induction pre with
  | nil => rfl
  | cons r t ih =>
    have hr : r = .error () := hpre r (by simp)
    subst hr
    simp only [List.cons_append, firstFulfilled]
    exact ih (fun x hx => hpre x (by simp [hx]))

theorem firstFulfilled_all_errors (l : List (Except Unit String))
    (h : ∀ r ∈ l, r = .error ()) : firstFulfilled l = none := by
  induction l with
  | nil => rfl
  | cons r t ih =>
    have hr : r = .error () := h r (by simp)
    subst hr
    simp only [firstFulfilled]
    exact ih (fun x hx => h x (by simp [hx]))

/-- C7: `IPFSClient.get` fetches every candidate gateway, waits for all
settlements, and returns the earliest gateway in configured list order that
succeeded — never a later gateway's result even if it settled first (the
settle times are provably irrelevant); when no gateway succeeds it fails
with the content-unavailable error. -/
theorem c7_ipfsGet_list_order_preference (cfgGateway : Option String)
    (fallbacks : List String) (cid : String)
    (fetchAt : String → Nat × Except Unit String) :
    (∀ (pre rest : List (Except Unit String)) (v : String),
      (gatewayUrls cfgGateway fallbacks cid).map (fun u => (fetchAt u).2) =
        pre ++ .ok v :: rest →
      (∀ r ∈ pre, r = .error ()) →
      ipfsGet cfgGateway fallbacks cid fetchAt = .ok v) ∧
    ((∀ u ∈ gatewayUrls cfgGateway fallbacks cid, (fetchAt u).2 = .error ()) →
      ipfsGet cfgGateway fallbacks cid fetchAt = .error ipfsGetFailMsg) ∧
    (∀ settleTimes : String → Nat,
      ipfsGet cfgGateway fallbacks cid
          (fun u => (settleTimes u, (fetchAt u).2)) =
        ipfsGet cfgGateway fallbacks cid fetchAt) := by
  have hres : promiseAllSettled
      ((gatewayUrls cfgGateway fallbacks cid).map fetchAt) =
      (gatewayUrls cfgGateway fallbacks cid).map (fun u => (fetchAt u).2) := by
    simp [promiseAllSettled, List.map_map, Function.comp]
  refine ⟨?_, ?_, ?_⟩
  · intro pre rest v hmap hpre
    simp only [ipfsGet, hres, hmap, firstFulfilled_skip_errors pre rest v hpre]
  · intro hall
    have hnone : firstFulfilled
        ((gatewayUrls cfgGateway fallbacks cid).map (fun u => (fetchAt u).2)) =
        none := by
      apply firstFulfilled_all_errors
      intro r hr
      rcases List.mem_map.mp hr with ⟨u, hu, huv⟩
      rw [← huv]
      exact hall u hu
    simp only [ipfsGet, hres, hnone]
  · intro g
    simp only [ipfsGet, promiseAllSettled, List.map_map]
    rfl

/-- The C7 witness environment: gateway A fails, B succeeds slowly (100),
C succeeds fast (10). -/
def c7fetch : String → Nat × Except Unit String := fun u =>
  if u = "https://gate-a.example/ipfs/Qm1" then (5, .error ())
  else if u = "https://gate-b.example/ipfs/Qm1" then (100, .ok "payload-B")
  else (10, .ok "payload-C")

/-- C7 witness: B's content wins by list order although C settles first. -/
theorem c7_ipfsGet_list_order_preference_witness :
    ipfsGet (some "https://gate-a.example")
        ["https://gate-b.example", "https://gate-c.example"] "ipfs://Qm1"
        c7fetch = .ok "payload-B" := by
  exact (c7_ipfsGet_list_order_preference (some "https://gate-a.example")
    ["https://gate-b.example", "https://gate-c.example"] "ipfs://Qm1"
    c7fetch).1 [.error ()] [.ok "payload-C"] "payload-B" (by rfl)
    (by intro r hr; simpa using hr)

/-- The two-tool document the C8 scenario serves under the `/mcp` path. -/
def c8toolsDoc : JValue :=
  .obj [("tools", .arr [.obj [("name", .str "alpha")],
                        .obj [("name", .str "beta")]])]

/-- The C8 counterexample environment for the part_001 crawler: the root
REST-ish endpoints answer with empty arrays, while the `/mcp` path has two
tools available. -/
def c8get : String → Except Unit JValue := fun u =>
  if u = "http://agent.example/tools" then .ok (.arr [])
  else if u = "http://agent.example/resources" then .ok (.arr [])
  else if u = "http://agent.example/prompts" then .ok (.arr [])
  else if u = "http://agent.example/mcp/tools" then .ok c8toolsDoc
  else .error ()

/-- C8 counterexample: the part_001 `_fetchViaJsonRpc` performs no path
cascade at all — it returns the root's empty tools result even though two
tools are available under the `/mcp` path, contradicting the claim that the
crawler returns the two `/mcp` tools rather than the empty root result. -/
theorem c8_seq_variant_counterexample :
    fetchViaJsonRpcSeq c8get "http://agent.example" =
      some ⟨.arr [], .arr [], .arr []⟩ ∧
    c8get "http://agent.example/mcp/tools" = .ok c8toolsDoc := by
  constructor <;> rfl

/-- C8 (amended): the part_002 `_fetchViaJsonRpc` does implement the claim:
it tries the path suffixes in the fixed order root, `/mcp`, `/sse` (three
concurrent capability calls per path) and returns the first path whose
extraction is non-empty. -/
theorem c8_path_cascade_amended (rpc : String → String → Option JValue)
    (httpUrl : String) :
    (∀ c, tryRpcPath rpc (stripTrailingSlash httpUrl) = some c →
      fetchViaJsonRpcPaths rpc httpUrl = some c) ∧
    (tryRpcPath rpc (stripTrailingSlash httpUrl) = none →
      ∀ c, tryRpcPath rpc (stripTrailingSlash httpUrl ++ "/mcp") = some c →
        fetchViaJsonRpcPaths rpc httpUrl = some c) ∧
    (tryRpcPath rpc (stripTrailingSlash httpUrl) = none →
      tryRpcPath rpc (stripTrailingSlash httpUrl ++ "/mcp") = none →
      fetchViaJsonRpcPaths rpc httpUrl =
        tryRpcPath rpc (stripTrailingSlash httpUrl ++ "/sse")) := by
  unfold fetchViaJsonRpcPaths mcpPathSuffixes
  refine ⟨?_, ?_, ?_⟩
  · intro c h
    simp [List.findSome?_cons, String.append_empty, h]
  · intro hroot c h
    simp [List.findSome?_cons, String.append_empty, hroot, h]
  · intro hroot hmcp
    simp only [List.map_cons, List.map_nil, List.findSome?_cons,
      String.append_empty, hroot, hmcp]
    cases tryRpcPath rpc (stripTrailingSlash httpUrl ++ "/sse") <;> rfl

/-- The C8 witness environment for the part_002 crawler: the root path
answers every listing with empty arrays; `/mcp` has two tools. -/
def c8rpc : String → String → Option JValue := fun u m =>
  if u = "http://agent.example" then
    some (.obj [("tools", .arr []), ("resources", .arr []),
                ("prompts", .arr [])])
  else if u = "http://agent.example/mcp" then
    (if m = "tools/list" then some c8toolsDoc else some (.obj []))
  else none

/-- C8 witness: the part_002 cascade returns the two `/mcp` tools. -/
theorem c8_path_cascade_amended_witness :
    fetchViaJsonRpcPaths c8rpc "http://agent.example" =
      some { mcpTools := some [.str "alpha", .str "beta"] } := by
  exact (c8_path_cascade_amended c8rpc "http://agent.example").2.1 (by rfl)
    { mcpTools := some [.str "alpha", .str "beta"] } (by rfl)

/-- C9 counterexample: `_extractList` does not deduplicate — a document
listing the same name twice yields it twice. -/
theorem c9_extractList_counterexample :
    extractList [("tools", .arr [.str "ping", .str "ping"])] "tools" =
      ["ping", "ping"] ∧
    ¬ (extractList [("tools", .arr [.str "ping", .str "ping"])] "tools").Nodup := by
  constructor
  · rfl
  · decide

theorem namesFromItems_str_cons (a : String) (t : List JValue) :
    namesFromItems (JValue.str a :: t) = a :: namesFromItems t := by
  simp [namesFromItems, nameItemStep]

theorem namesFromItems_strings (xs : List String) :
    namesFromItems (xs.map .str) = xs := by
  induction xs with
  | nil => rfl
  | cons a t ih => simp only [List.map_cons, namesFromItems_str_cons, ih]

theorem namedList_foldr_names (xs : List String) :
    (xs.map (fun s => JValue.obj [("name", JValue.str s)])).foldr
      namedItemStep [] = xs.map .str := by
  induction xs with
  | nil => rfl
  | cons a t ih =>
    simp only [List.map_cons, List.foldr_cons, ih, namedItemStep, getKey,
      List.find?]
    rfl

/-- C9 (amended): capability lists are ordered (document order) but *not*
deduplicated: a top-level string list is returned exactly as listed, and
the JSON-RPC tools/prompts extraction returns the `name` fields exactly as
listed — duplicates included. -/
theorem c9_extractList_order_amended (key : String) (xs : List String)
    (h1 : key ≠ "capabilities") (h2 : key ≠ "abilities")
    (h3 : key ≠ "features") :
    extractList [(key, .arr (xs.map .str))] key = xs ∧
    ∀ lk : String, namesFromNamedList
        (some (.obj [(lk, .arr (xs.map (fun s =>
          JValue.obj [("name", JValue.str s)])))])) lk = xs.map .str := by
  constructor
  · have hget : getKey [(key, JValue.arr (xs.map JValue.str))] key =
        some (JValue.arr (xs.map JValue.str)) := by
      simp [getKey, List.find?]
    unfold extractList
    rw [hget]
    cases xs with
    | nil =>
      simp [namesFromItems, containersScan, containerKeys, getKey,
        List.find?, h1, h2, h3]
    | cons a t => simp [namesFromItems_str_cons, namesFromItems_strings]
  · intro lk
    have hget : getKey [(lk, JValue.arr (xs.map (fun s =>
        JValue.obj [("name", JValue.str s)])))] lk =
        some (JValue.arr (xs.map (fun s =>
          JValue.obj [("name", JValue.str s)]))) := by
      simp [getKey, List.find?]
    simp only [namesFromNamedList, jvGetField, hget, namedList_foldr_names]

/-- C9 witness: a three-entry list with a duplicate comes back verbatim. -/
theorem c9_extractList_order_amended_witness :
    extractList [("tools", .arr [.str "a", .str "b", .str "a"])] "tools" =
      ["a", "b", "a"] ∧
    namesFromNamedList (some (.obj [("tools", .arr [
        JValue.obj [("name", JValue.str "a")],
        JValue.obj [("name", JValue.str "b")],
        JValue.obj [("name", JValue.str "a")]])])) "tools" =
      [.str "a", .str "b", .str "a"] := by
  have h := c9_extractList_order_amended "tools" ["a", "b", "a"] (by decide)
    (by decide) (by decide)
  exact ⟨h.1, h.2 "tools"⟩

theorem prepareFeedback_extra_assign (ag cl : String) (ch : Option Int)
    (reg : String) (sc : Option ℚ) (tg : Option (List String))
    (txt cap nm sk tk : Option String)
    (ctx pop : Option (List (String × JValue)))
    (e : List (String × JValue)) (cAt : String) :
    prepareFeedback ag cl ch reg sc tg txt cap nm sk tk ctx pop (some e) cAt =
      (prepareFeedback ag cl ch reg sc tg txt cap nm sk tk ctx pop none
        cAt).map (fun f => assign f e) := by
  unfold prepareFeedback
  cases jsSplit ag ':' with
  | nil => rfl
  | cons x t =>
    cases t with
    | nil => rfl
    | cons p1 t2 =>
      cases t2 with
      | nil => by_cases hp : p1 = "" <;> simp [hp, Except.map]
      | cons y t3 => rfl

/-- The extra entries that are not tag overrides. -/
def tagEntriesRemoved (e : List (String × JValue)) :
    List (String × JValue) :=
  e.filter (fun p => !(p.1 == "tag1" || p.1 == "tag2"))

/-- C10: the on-chain `tag1`/`tag2` bytes32 values are computed solely from
the caller's original `tags` parameter (first two entries, UTF-8,
zero-padded/truncated to 32 bytes), so two `giveFeedback` calls whose
inputs differ only in the extra map's `tag1`/`tag2` entries submit
identical tag bytes — whereas the submitted score is read from the merged
record, so an extra `score` override does change the on-chain score. -/
theorem c10_tags_from_params_score_from_record
    (regs : Option (String × String)) (params : FeedbackParams)
    (e1 e2 : List (String × JValue)) (client createdAt : String)
    (jwt : Option String) (read : Except Unit Nat)
    (upload : Except Unit String) (keccakHex : String → String)
    (auth : String)
    (_hdiff : tagEntriesRemoved e1 = tagEntriesRemoved e2) :
    ((buildSubmitArgs regs { params with extra := some e1 } client createdAt
        jwt read upload keccakHex auth).map
      (fun p => (p.args.tag1, p.args.tag2)) =
     (buildSubmitArgs regs { params with extra := some e2 } client createdAt
        jwt read upload keccakHex auth).map
      (fun p => (p.args.tag1, p.args.tag2))) ∧
    (buildSubmitArgs (some ("0xR", "0xP"))
        { agentId := "1:2", score := some 5,
          extra := some [("score", JValue.num 99)] } "0xC" "t" none
        (.error ()) (.error ()) (fun _ => "") "0xA").map
      (fun p => p.args.score) = .ok (some 99) ∧
    (buildSubmitArgs (some ("0xR", "0xP"))
        { agentId := "1:2", score := some 5 } "0xC" "t" none (.error ())
        (.error ()) (fun _ => "") "0xA").map
      (fun p => p.args.score) = .ok (some 5) := by
  refine ⟨?_, ?_, ?_⟩
  · obtain ⟨ag, sc, tg, txt, cap, nm, sk, tk, cx, pp, _⟩ := params
    unfold buildSubmitArgs
    dsimp only
    cases regs with
    | none => rfl
    | some ir =>
      obtain ⟨identity, reputation⟩ := ir
      cases hparse : parseAgentId ag with
      | error e => simp [hparse]
      | ok ct =>
        obtain ⟨ci, ti⟩ := ct
        dsimp only
        rw [prepareFeedback_extra_assign, prepareFeedback_extra_assign]
        cases hprep : prepareFeedback ag client ci identity sc tg txt cap nm
            sk tk cx pp none createdAt with
        | error e => simp [hparse, hprep, Except.map]
        | ok f =>
          cases ti with
          | none => cases ci <;> simp [hparse, hprep, Except.map]
          | some tok => cases ci <;> simp [hparse, hprep, Except.map]
  · have hr : jsRound 5 = 5 := by norm_num [jsRound]
    have hp1 : jsParseIntDec "1" = some 1 := by rfl
    have hp2 : jsParseIntDec "2" = some 2 := by rfl
    simp [buildSubmitArgs, parseAgentId, prepareFeedback, jsSplit,
      splitOnChar, cleanFields, assign, setKey, getKey, List.find?, jsNumber,
      hr, hp1, hp2, Except.map]
  · have hr : jsRound 5 = 5 := by norm_num [jsRound]
    have hp1 : jsParseIntDec "1" = some 1 := by rfl
    have hp2 : jsParseIntDec "2" = some 2 := by rfl
    simp [buildSubmitArgs, parseAgentId, prepareFeedback, jsSplit,
      splitOnChar, cleanFields, assign, setKey, getKey, List.find?, jsNumber,
      hr, hp1, hp2, Except.map]

/-- C10 witness: two concrete calls differing only in extra tag overrides
submit the same tag bytes. -/
theorem c10_tags_from_params_witness :
    (buildSubmitArgs (some ("0xR", "0xP"))
        { agentId := "1:2", tags := some ["x", "y"],
          extra := some [("tag1", JValue.str "zzz")] } "0xC" "t" none
        (.error ()) (.error ()) (fun _ => "") "0xA").map
      (fun p => (p.args.tag1, p.args.tag2)) =
    (buildSubmitArgs (some ("0xR", "0xP"))
        { agentId := "1:2", tags := some ["x", "y"],
          extra := some [] } "0xC" "t" none (.error ()) (.error ())
        (fun _ => "") "0xA").map
      (fun p => (p.args.tag1, p.args.tag2)) := by
  exact (c10_tags_from_params_score_from_record (some ("0xR", "0xP"))
    { agentId := "1:2", tags := some ["x", "y"] }
    [("tag1", JValue.str "zzz")] [] "0xC" "t" none (.error ()) (.error ())
    (fun _ => "") "0xA" (by rfl)).1

end FluidSdk
